import Mathlib

/-!
Verification development for the scan-engine media pipeline.

Shallow embedding of the pure control flow and data transformations of the
repository sources (`main.py`, `handler.py`, `utils/video_utils.py`,
`utils/nsfw_utils.py`, `utils/helpers.py`).  External effects (network
download, the ffmpeg extraction subprocesses, the torch classifier, the
filesystem, wall-clock time) are modelled as explicit inputs: each function
receives the outcomes the corresponding library calls would produce, and the
Lean definitions reproduce exactly the branching, aggregation and arithmetic
the Python code performs on those outcomes.  Python floats are modelled as
rationals; Python `round` (banker's rounding) and `int` (truncation toward
zero) are modelled explicitly below.
-/

/- ====================  Python numeric primitives  ==================== -/

/-- Python `int()` applied to a rational number: truncation toward zero. -/
def pyInt (q : ℚ) : ℤ := if 0 ≤ q then ⌊q⌋ else -⌊-q⌋

/-- Python `round()` to an integer: round half to even (banker's rounding). -/
def pyRoundInt (q : ℚ) : ℤ :=
  if q - (⌊q⌋ : ℚ) < 1/2 then ⌊q⌋
  else if 1/2 < q - (⌊q⌋ : ℚ) then ⌊q⌋ + 1
  else if ⌊q⌋ % 2 = 0 then ⌊q⌋ else ⌊q⌋ + 1

/-- Python `round(q, 2)`. -/
def round2 (q : ℚ) : ℚ := (pyRoundInt (q * 100) : ℚ) / 100

/-- Python `round(q, 4)`. -/
def round4 (q : ℚ) : ℚ := (pyRoundInt (q * 10000) : ℚ) / 10000

/- ====================  Deduplicator  ====================

Embeds the dedup phase of `extract_video_frames` (video_utils.py lines
95-122): the nested function `add_frames` and its three invocations.  A
staging directory is modelled as a list of (filename, content hash) pairs:
`os.listdir` yields the filenames, `file_md5` maps each file to its content
hash (byte-identical contents, and only those, share a hash, so hashes stand
in for file contents).  Filenames are drawn from an arbitrary linearly
ordered type (Python sorts name strings; any linear order models this) and
hashes from an arbitrary type with decidable equality.  The `shutil.move`
into `final_dir` keyed by hash means the produced path sequence is determined
by the hash sequence, so the model returns the claimed hashes in order. -/

/-- State of the dedup pass: the `seen` hash set and the `frame_paths`
accumulator (represented by the claimed hashes in claim order). -/
structure DedupState (h : Type) where
  seen : List h
  final : List h
deriving DecidableEq

/-- One candidate file inspected by `add_frames` (video_utils.py lines
106-114): if its hash is new, claim it (add to `seen`, move into the final
directory, append to `frame_paths`); otherwise leave the state unchanged. -/
def visitCandidate {h : Type} [DecidableEq h] (st : DedupState h) (x : h) : DedupState h :=
  if x ∈ st.seen then st else ⟨x :: st.seen, st.final ++ [x]⟩

/-- The `add_frames` loop over the (already sorted) filenames of one staging
directory: `count` counts visited candidates and `if cap and count >= cap:
break` stops once `count` reaches a nonzero `cap` (video_utils.py lines
101-115).  The model ignores the per-file exception guard (hashing a staged
file never fails in the model, matching the intended path). -/
def addFramesAux {h : Type} [DecidableEq h] (cap : ℕ) : List h → ℕ → DedupState h → DedupState h
  | [], _, st => st
  | x :: rest, count, st =>
    if cap ≠ 0 ∧ cap ≤ count then st
    else addFramesAux cap rest (count + 1) (visitCandidate st x)

/-- `sorted(os.listdir(folder))`: filenames in sorted order (a stable
insertion sort; directory listings have distinct names, so stability is
irrelevant). -/
def sortByName {n h : Type} [LinearOrder n] (dir : List (n × h)) : List (n × h) :=
  List.insertionSort (fun a b => a.1 ≤ b.1) dir

/-- `add_frames(folder, cap)`: visit the directory's files in sorted filename
order, threading the dedup state. -/
def addFrames {n h : Type} [LinearOrder n] [DecidableEq h] (cap : ℕ) (dir : List (n × h))
    (st : DedupState h) : DedupState h :=
  addFramesAux cap ((sortByName dir).map Prod.snd) 0 st

/-- Default `cap` parameter of `add_frames` (video_utils.py line 99). -/
def addFramesDefaultCap : ℕ := 250

/-- `max_fps_frames` default (video_utils.py line 14). -/
def maxFpsFrames : ℕ := 60

/-- The dedup phase of `extract_video_frames` (video_utils.py lines 96-122):
`add_frames(scene_dir)`, `add_frames(fps_dir, cap=max_fps_frames)`,
`add_frames(spike_dir)` starting from an empty seen set, returning the
claimed hash sequence (`frame_paths` is this sequence rendered as
`final_dir/{hash}.jpg` paths). -/
def deduplicate {n h : Type} [LinearOrder n] [DecidableEq h]
    (sceneDir fpsDir spikeDir : List (n × h)) : List h :=
  (addFrames addFramesDefaultCap spikeDir
    (addFrames maxFpsFrames fpsDir
      (addFrames addFramesDefaultCap sceneDir ⟨[], []⟩))).final

/-- The sequence of candidate hashes actually visited by the dedup pass:
each directory in priority order scene, fps, spike; within a directory the
files in sorted filename order, truncated at that directory's cap. -/
def visitSeq {n h : Type} [LinearOrder n] [DecidableEq h]
    (sceneDir fpsDir spikeDir : List (n × h)) : List h :=
  ((sortByName sceneDir).map Prod.snd).take addFramesDefaultCap
    ++ ((sortByName fpsDir).map Prod.snd).take maxFpsFrames
    ++ ((sortByName spikeDir).map Prod.snd).take addFramesDefaultCap

/-- Reference function: keep the first occurrence of every value, in first
encounter order. -/
def firstOcc {h : Type} [DecidableEq h] : List h → List h
  | [] => []
  | x :: rest => x :: firstOcc (rest.filter (fun y => y ≠ x))
termination_by l => l.length
decreasing_by
  exact Nat.lt_succ_of_le (List.length_filter_le _ _)

/- ====================  Readiness barrier (producer side)  ====================

Embeds the final-frame existence check and `done.json` write of
`extract_video_frames` (video_utils.py lines 129-156).  The filesystem is
modelled by an oracle `diskAt t p` telling whether path `p` exists at the
`t`-th existence check: check 0 is the initial scan, checks 1..10 are the
re-scans inside the bounded wait loop (10 iterations of 0.25 s sleep, about
2.5 s total). -/

/-- The `done.json` readiness marker.  Only `total_frames` carries pipeline
meaning; `output_dir`/`final_dir`/`time_elapsed`/`timestamp` are environment
strings and wall-clock values with no bearing on any claim, so they are not
modelled. -/
structure Marker where
  total_frames : ℕ
deriving DecidableEq

/-- `[f for f in frame_paths if not os.path.exists(f)]` at check `t`. -/
def missingAt (diskAt : ℕ → String → Bool) (paths : List String) (t : ℕ) : List String :=
  paths.filter (fun p => !(diskAt t p))

/-- The `for i in range(10)` wait loop (video_utils.py lines 133-137):
recompute the missing list at successive checks, stopping early once it is
empty; the value left in `missing` after the loop is returned. -/
def retryMissing (diskAt : ℕ → String → Bool) (paths : List String) : ℕ → ℕ → List String
  | t, 0 => missingAt diskAt paths t
  | t, 1 => missingAt diskAt paths t
  | t, r + 2 =>
    let m := missingAt diskAt paths t
    if m.isEmpty then m else retryMissing diskAt paths (t + 1) (r + 1)

/-- Lines 129-156 of video_utils.py: verify every claimed final frame is on
disk, waiting up to 10 bounded retries; if any frame is still missing raise
`FileNotFoundError` (modelled as `.error ()`), otherwise write `done.json`
with `total_frames = len(frame_paths)` (modelled as `.ok marker` — the marker
exists on disk exactly when the result is `.ok`). -/
def finalizeExtraction (diskAt : ℕ → String → Bool) (paths : List String) : Except Unit Marker :=
  let m0 := missingAt diskAt paths 0
  if m0.isEmpty then .ok ⟨paths.length⟩
  else
    let m := retryMissing diskAt paths 1 10
    if m.isEmpty then .ok ⟨paths.length⟩ else .error ()

/- ====================  Spike detector  ====================

Embeds `detect_luma_spike_timestamps` (video_utils.py lines 161-199).  A
video source is its reported fps plus the sequence of frames the capture
yields, each frame already converted to grayscale (`cv2.cvtColor` is an
external pixel transform; the detector only ever looks at grayscale means),
a frame being its list of pixel luma values.  Each iteration of the Python
`while cap.isOpened()` loop consumes exactly one frame (`cap.grab()` on
skipped indices, `cap.read()` on sampled ones), so the loop is structural
recursion over the frame list; `cap.read()` failing at the end of the stream
breaks the loop. -/

def diffThresh : ℚ := 15

def sampleInterval : ℚ := 1/10

def suppressionWindow : ℚ := 1

/-- `cv2.absdiff(gray, prev_gray).mean()`: mean absolute pixel difference. -/
def absDiffMean (a b : List ℕ) : ℚ :=
  let d := List.zipWith (fun x y => ((x : ℤ) - (y : ℤ)).natAbs) a b
  (d.sum : ℚ) / (d.length : ℚ)

/-- The sampling loop of `detect_luma_spike_timestamps` (video_utils.py lines
174-196), for a positive stride `step`: skip frames whose index is not a
multiple of `step`; on sampled frames compare against the previous sampled
grayscale frame and record `round(ts, 2)` when the mean difference exceeds
the threshold and at least the suppression window has elapsed since the last
recorded spike. -/
def spikeLoop (fps : ℚ) (step : ℕ) : List (List ℕ) → ℕ → Option (List ℕ) → ℚ → List ℚ
  | [], _, _, _ => []
  | frame :: rest, idx, prev, lastSpike =>
    if idx % step ≠ 0 then
      spikeLoop fps step rest (idx + 1) prev lastSpike
    else
      match prev with
      | none => spikeLoop fps step rest (idx + 1) (some frame) lastSpike
      | some pg =>
        let delta := absDiffMean frame pg
        let ts : ℚ := (idx : ℚ) / fps
        if diffThresh < delta ∧ suppressionWindow ≤ ts - lastSpike then
          round2 ts :: spikeLoop fps step rest (idx + 1) (some frame) ts
        else
          spikeLoop fps step rest (idx + 1) (some frame) lastSpike

/-- A video source as seen by the spike detector. -/
structure VideoSource where
  fps : ℚ
  frames : List (List ℕ)

/-- `detect_luma_spike_timestamps(video_path)` (video_utils.py lines
161-199).  `fps == 0` (the value OpenCV reports for unreadable sources)
returns an empty list.  Otherwise `step = int(fps * 0.1)`; when that stride
is zero the very first loop iteration evaluates `frame_idx % 0` and raises
`ZeroDivisionError`, modelled as `.error ()` (OpenCV reports nonnegative fps,
so a negative stride is unreachable and is folded into the same guard). -/
def detectLumaSpikeTimestamps (v : VideoSource) : Except Unit (List ℚ) :=
  if v.fps = 0 then .ok []
  else
    let step := pyInt (v.fps * sampleInterval)
    if step ≤ 0 then .error ()
    else .ok (spikeLoop v.fps step.toNat v.frames 0 none (-suppressionWindow))

/- ====================  NSFW classifier result shaping  ====================

Embeds the pure result shaping of `scan_images_for_nsfw` (nsfw_utils.py
lines 20-41).  The model inference itself (processor, torch forward pass,
softmax) is an external collaborator: its outcome is supplied as either a
per-image probability map list (one `score_dict` per input path, in input
order — batching in chunks of 32 concatenates back to exactly this) or a
raised exception. -/

/-- A `score_dict`: label to probability. -/
abbrev Probs := List (String × ℚ)

/-- `score_dict.get("nsfw", 0.0)`. -/
def nsfwScoreOf (probs : Probs) : ℚ := (probs.lookup "nsfw").getD 0

/-- One result tuple `(path, is_nsfw, nsfw_score, score_dict)` of
`scan_images_for_nsfw`; `is_nsfw = nsfw_score > 0.5` (nsfw_utils.py line 38). -/
structure ScanTuple where
  path : String
  is_nsfw : Bool
  nsfw_score : ℚ
  full_probs : Probs
deriving DecidableEq

/-- The per-path tuple construction of `scan_images_for_nsfw` (nsfw_utils.py
lines 35-39), given the softmax probability maps. -/
def scanImagesForNsfw (paths : List String) (probsList : List Probs) : List ScanTuple :=
  List.zipWith (fun p pr => ⟨p, decide (1/2 < nsfwScoreOf pr), nsfwScoreOf pr, pr⟩) paths probsList

/- ====================  Scan dispatcher  ====================

Embeds `scan_frames` (main.py lines 120-186).  The classifier call outcome
is an explicit input (`.ok probsList` for a normal return, `.error msg` for a
raised exception whose message is `msg`); per-image metadata reads
(`cv2.imread` + `os.path.getsize`) are an oracle returning
(width, height, raw size in MB) or `none` when the image cannot be read.
The pre-scan existence wait (5 retries of 0.5 s, main.py lines 128-135) is
summarised by the boolean `present`: whether all frame paths appeared within
the retry budget; when they did not, `scan_frames` raises (uncaught)
`RuntimeError`. -/

/-- `os.path.basename`. -/
def basenameOf (p : String) : String :=
  String.mk (p.toList.foldl (fun acc c => if c = '/' then [] else acc ++ [c]) [])

/-- One shaped per-frame result (main.py lines 153-172 and 179-186).
`relative_path` (`os.path.relpath` of the same path) is pure path cosmetics
untouched by every claim and is not modelled; `width`/`height`/`size_mb` are
present only for image results. -/
structure FrameResult where
  filename : String
  is_nsfw : Bool
  nsfw_score : ℚ
  full_probs : Probs
  width : Option ℤ
  height : Option ℤ
  size_mb : Option ℚ
  error : Option String
deriving DecidableEq

/-- The degraded result the `except` branch produces for one path
(main.py lines 179-186). -/
def degradedFrameResult (msg : String) (p : String) : FrameResult :=
  ⟨basenameOf p, false, 0, [], none, none, none, some msg⟩

/-- Shaping of one image result inside the `try` block (main.py lines
146-163): an unreadable image raises `ValueError` there, aborting the loop. -/
def imageFrameResult (meta : String → Option (ℤ × ℤ × ℚ)) (t : ScanTuple) :
    Except String FrameResult :=
  match meta t.path with
  | none => .error ("Could not read image: " ++ t.path)
  | some (w, h, szMb) =>
    .ok ⟨basenameOf t.path, t.is_nsfw, t.nsfw_score, t.full_probs,
         some w, some h, some (round2 szMb), none⟩

/-- Shaping of one video-frame result (main.py lines 164-172). -/
def videoFrameResult (t : ScanTuple) : FrameResult :=
  ⟨basenameOf t.path, t.is_nsfw, t.nsfw_score, t.full_probs, none, none, none, none⟩

/-- The `try` block of `scan_frames` (main.py lines 137-174): classifier
call, then per-path reshaping; any exception (classifier raise, or the
`ValueError` for an unreadable image — `List.mapM` short-circuits at the
first error just as the Python loop raises there) escapes to the `except`. -/
def scanFramesTry (mediaType : String) (paths : List String)
    (classifierRes : Except String (List Probs)) (meta : String → Option (ℤ × ℤ × ℚ)) :
    Except String (List FrameResult) := do
  let probsList ← classifierRes
  let tuples := scanImagesForNsfw paths probsList
  if mediaType = "images" then
    tuples.mapM (imageFrameResult meta)
  else
    .ok (tuples.map videoFrameResult)

/-- `scan_frames` (main.py lines 120-186): empty input returns `[]`; frames
that never appear raise; otherwise the `try` block runs and any exception in
it degrades to one error-tagged result per input path. -/
def scanFrames (mediaType : String) (paths : List String) (present : Bool)
    (classifierRes : Except String (List Probs)) (meta : String → Option (ℤ × ℤ × ℚ)) :
    Except String (List FrameResult) :=
  if paths.isEmpty then .ok []
  else if !present then .error "Final frames missing"
  else
    match scanFramesTry mediaType paths classifierRes meta with
    | .ok rs => .ok rs
    | .error e => .ok (paths.map (degradedFrameResult e))

/- ====================  Verdict aggregation  ==================== -/

def engineVersion : String := "scan-engine-v1"

/-- Python `max(frame_results, key=lambda x: x["nsfw_score"])`: scan left to
right, replacing the current best only on a strictly larger key, so the
first maximal element wins ties. -/
def pickMax (best : FrameResult) : List FrameResult → FrameResult
  | [] => best
  | f :: rest => if best.nsfw_score < f.nsfw_score then pickMax f rest else pickMax best rest

/-- Video job metadata (main.py lines 102-109). -/
structure VideoMetadata where
  width : ℤ
  height : ℤ
  duration : ℚ
  fps : ℚ
  size_mb : ℚ
  original_filename : String
deriving DecidableEq

/-- A per-job video verdict record (main.py lines 243-257). -/
structure Verdict where
  filename : String
  is_nsfw : Bool
  nsfw_score_max : ℚ
  nsfw_score_avg : ℚ
  full_probs : Probs
  frame_count : ℕ
  engine_version : String
  width : Option ℤ
  height : Option ℤ
  duration : Option ℚ
  fps : Option ℚ
  size_mb : Option ℚ
  error : Option String
deriving DecidableEq

/-- The verdict construction of the video branch (main.py lines 236-257):
`none` when the frame-result list is empty (the job is skipped), otherwise
max/avg/any aggregation with metadata carried over (`meta.get(...)` on the
absent metadata dict yields `None`, modelled by `Option.map` on the optional
metadata). -/
def mkVideoVerdict (jobId : String) (meta : Option VideoMetadata) :
    List FrameResult → Option Verdict
  | [] => none
  | f :: rest =>
    let mostNsfw := pickMax f rest
    let avg := ((f :: rest).map FrameResult.nsfw_score).sum / (((f :: rest).length : ℚ))
    some ⟨(meta.map VideoMetadata.original_filename).getD jobId,
          (f :: rest).any FrameResult.is_nsfw,
          mostNsfw.nsfw_score,
          round4 avg,
          mostNsfw.full_probs,
          (f :: rest).length,
          engineVersion,
          meta.map VideoMetadata.width,
          meta.map VideoMetadata.height,
          meta.map VideoMetadata.duration,
          meta.map VideoMetadata.fps,
          meta.map VideoMetadata.size_mb,
          none⟩

/- ====================  Job preprocessor  ====================

Embeds `preprocess_media` (main.py lines 24-117).  Downloads are external
(`download_file` returns the saved path or `None` on any failure); the
OpenCV container probe and the extraction pipeline outcomes are per-job
inputs. -/

def ALLOWED_VIDEO_EXTENSIONS : List String := [".mp4", ".mov", ".avi", ".mkv", ".webm"]

def ALLOWED_IMAGE_EXTENSIONS : List String := [".jpg", ".jpeg", ".png", ".bmp", ".webp"]

/-- `MAX_VIDEO_DURATION = 5 * 60` seconds (main.py line 19). -/
def MAX_VIDEO_DURATION : ℚ := 300

/-- `os.path.splitext(path)[-1].lower()`: the lowercased suffix starting at
the last dot of the final path component, `""` when that component has no
dot.  (The splitext corner case of a component that is all extension, like
`".bashrc"`, cannot arise for paths produced by `download_file`, which always
prepends a stem.) -/
def extOfLower (p : String) : String :=
  match p.toList.foldl
      (fun acc c =>
        if c = '/' then none
        else if c = '.' then some ['.']
        else acc.map (fun l => l ++ [c]))
      none with
  | none => ""
  | some l => String.mk (l.map Char.toLower)

/-- The externally observable facts about one image job: its id and what
`download_file` returned for its URL. -/
structure ImgJobEnv where
  job_id : String
  download : Option String
deriving DecidableEq

/-- An image job descriptor `{"job_id": ..., "image_path": ...}`. -/
structure ImageDescriptor where
  job_id : String
  image_path : String
deriving DecidableEq

/-- The image branch of `preprocess_media` (main.py lines 43-59): skip jobs
whose download failed or whose saved path has a disallowed extension. -/
def preprocessImages : List ImgJobEnv → List ImageDescriptor
  | [] => []
  | j :: rest =>
    match j.download with
    | none => preprocessImages rest
    | some path =>
      if extOfLower path ∈ ALLOWED_IMAGE_EXTENSIONS then
        ⟨j.job_id, path⟩ :: preprocessImages rest
      else preprocessImages rest

/-- The externally observable facts about one video job: the download
outcome, the OpenCV probe values, and the outcome of the extraction pipeline
plus the `done.json` wait, had they been invoked. -/
structure VidJobEnv where
  job_id : String
  download : Option String
  opened : Bool
  fps : ℚ
  frame_count : ℚ
  width : ℤ
  height : ℤ
  size_bytes : ℚ
  extractResult : Except String (List String)
  doneWait : Except String Unit

/-- A video job descriptor; the stub `{"job_id": ..., "frames_paths": [],
"metadata": {}}` appended at main.py line 75 has empty frames and no
metadata. -/
structure VideoDescriptor where
  job_id : String
  frames_paths : List String
  metadata : Option VideoMetadata
deriving DecidableEq

/-- The body of the per-job video loop of `preprocess_media` (main.py lines
61-111) for one job: returns the descriptors this job contributes (`[]` when
the job is skipped at the download gate, the bare stub when it is rejected
by the probe) and the ids of jobs for which `extract_video_frames` was
invoked (the staging directories `scene/fps/spike/final` are created inside
that call, so a job absent from this list gets no staging directories).
A raised extraction or `wait_for_done` error escapes the loop. -/
def stepVideoJob (e : VidJobEnv) : Except String (List VideoDescriptor × List String) :=
  match e.download with
  | none => .ok ([], [])
  | some path =>
    if extOfLower path ∉ ALLOWED_VIDEO_EXTENSIONS then .ok ([], [])
    else
      -- the stub is appended (main.py line 75) before the probe
      if !e.opened then .ok ([⟨e.job_id, [], none⟩], [])
      else if e.fps ≤ 0 ∨ e.frame_count ≤ 0 then .ok ([⟨e.job_id, [], none⟩], [])
      else
        let duration := e.frame_count / e.fps
        if MAX_VIDEO_DURATION < duration then .ok ([⟨e.job_id, [], none⟩], [])
        else
          match e.extractResult with
          | .error err => .error err
          | .ok frames =>
            match e.doneWait with
            | .error err => .error err
            | .ok _ =>
              .ok ([⟨e.job_id, frames,
                     some ⟨e.width, e.height, round2 duration, round2 e.fps,
                           round2 (e.size_bytes / (1024 * 1024)), basenameOf path⟩⟩],
                   [e.job_id])

/-- The video branch of `preprocess_media` (main.py lines 60-117): process
jobs in order; the `preprocessed_jobs[-1]` updates at lines 110-111 target
exactly the stub appended for the current job, so the loop is the
concatenation of the per-job contributions; the blanket
`except ... raise` (lines 113-115) re-raises any extraction error,
aborting the whole call. -/
def preprocessVideos : List VidJobEnv → Except String (List VideoDescriptor × List String)
  | [] => .ok ([], [])
  | e :: rest => do
    let (ds, ex) ← stepVideoJob e
    let (ds2, ex2) ← preprocessVideos rest
    return (ds ++ ds2, ex ++ ex2)

/- ====================  Entrypoint and handler  ==================== -/

/-- `validate_input` (helpers.py lines 51-66) on the typed facts it checks;
the dictionary-shape checks are vacuous in the typed model. -/
def validateInput (mediaType : String) (jobCount : ℕ) : Except String Unit :=
  if mediaType ≠ "videos" ∧ mediaType ≠ "images" then
    .error "Invalid type: must be videos or images"
  else if !(1 ≤ jobCount ∧ jobCount ≤ 40) then
    .error "jobs must be a list of 1 to 40 jobs"
  else if mediaType = "videos" ∧ 10 < jobCount then
    .error "Too many video jobs: max 10 allowed"
  else if mediaType = "images" ∧ 40 < jobCount then
    .error "Too many image jobs: max 40 allowed"
  else .ok ()

/-- A request together with the per-job external outcomes. -/
inductive MediaRequest where
  | images (jobs : List ImgJobEnv)
  | videos (jobs : List VidJobEnv)

def MediaRequest.mediaType : MediaRequest → String
  | .images _ => "images"
  | .videos _ => "videos"

def MediaRequest.jobCount : MediaRequest → ℕ
  | .images jobs => jobs.length
  | .videos jobs => jobs.length

/-- An image verdict: the frame result passed through with `frame_count=1`
and the engine-version tag (main.py lines 212-219). -/
structure ImageVerdict where
  result : FrameResult
  frame_count : ℕ
  engine_version : String
deriving DecidableEq

def imagesVerdicts (rs : List FrameResult) : List ImageVerdict :=
  rs.map (fun r => ⟨r, 1, engineVersion⟩)

/-- The value the video branch returns: `{"results": scan_results}`. -/
structure VideosResponse where
  results : List Verdict
deriving DecidableEq

/-- The scanning-stage oracles: whether a frame-path set appears on disk
within the pre-scan retry budget, the classifier call outcome per path set,
and the image metadata reads. -/
structure ScanEnv where
  present : List String → Bool
  classifier : List String → Except String (List Probs)
  imageMeta : String → Option (ℤ × ℤ × ℚ)

/-- The per-job scanning loop of the video branch (main.py lines 224-259):
skip jobs with no frames, scan (a raise propagates), skip jobs whose scan
produced no results, otherwise append the aggregated verdict. -/
def videoResultsLoop (env : ScanEnv) : List VideoDescriptor → Except String (List Verdict)
  | [] => .ok []
  | d :: rest =>
    if d.frames_paths.isEmpty then videoResultsLoop env rest
    else do
      let frameResults ← scanFrames "videos" d.frames_paths (env.present d.frames_paths)
          (env.classifier d.frames_paths) env.imageMeta
      match mkVideoVerdict d.job_id d.metadata frameResults with
      | none => videoResultsLoop env rest
      | some v => do
        let vs ← videoResultsLoop env rest
        return v :: vs

/-- `analyze_media` (main.py lines 190-268).  The first component is the
function's outcome: a raised exception, or its return value — `Some`
response for the video branch's `return {"results": ...}` (line 265), and
`none` for the images branch, which falls off the end of the function after
the cleanup and so returns Python `None`.  The second component records
whether the `shutil.rmtree(os.path.join(BASE_DIR, round_id),
ignore_errors=True)` call at line 267 was reached: it is the only removal of
the round directory, and `ignore_errors=True` swallows any removal failure. -/
def analyzeMedia (req : MediaRequest) (env : ScanEnv) :
    Except String (Option VideosResponse) × Bool :=
  match validateInput req.mediaType req.jobCount with
  | .error e => (.error e, false)
  | .ok _ =>
    match req with
    | .images jobs =>
      let pre := preprocessImages jobs
      let framePaths := pre.map ImageDescriptor.image_path
      match scanFrames "images" framePaths (env.present framePaths)
          (env.classifier framePaths) env.imageMeta with
      | .error e => (.error e, false)
      | .ok rs =>
        let _verdicts := imagesVerdicts rs
        -- the images branch falls through to the rmtree call and the
        -- function body ends without a return statement
        (.ok none, true)
    | .videos jobs =>
      match preprocessVideos jobs with
      | .error e => (.error e, false)
      | .ok (descs, _) =>
        match videoResultsLoop env descs with
        | .error e => (.error e, false)
        | .ok verdicts =>
          -- `return {"results": scan_results}` (line 265) executes before
          -- the rmtree call at line 267
          (.ok (some ⟨verdicts⟩), false)

/-- The RunPod handler response shape (handler.py lines 9-21). -/
structure HandlerResponse where
  status : String
  results : Option (Option VideosResponse)
  message : Option String
deriving DecidableEq

/-- `handler` (handler.py): wrap the entrypoint value on success, catch any
exception and report its message on failure. -/
def handler (outcome : Except String (Option VideosResponse) × Bool) : HandlerResponse :=
  match outcome.1 with
  | .ok v => ⟨"success", some v, none⟩
  | .error e => ⟨"error", none, some e⟩

/- ====================  Concrete instances used in the claim analyses  ==================== -/

/-- A scene staging directory holding 251 files with pairwise distinct
contents; filenames are modelled by their numeric sort keys (ffmpeg emits
`frame_%03d.jpg` names whose sorted order is their numeric order). -/
def bigSceneDir : List (ℕ × ℕ) := (List.range 251).map (fun i => (i, i))

/-- A video job whose download, probe, extraction and readiness wait all
succeed: 30 fps, 300 frames (10 s), one extracted frame. -/
def goodVidEnv : VidJobEnv :=
  ⟨"2", some "/tmp/data/r1/videos/2/video.mp4", true, 30, 300, 640, 480, 1048576,
   .ok ["/tmp/data/r1/videos/2/final/aa.jpg"], .ok ()⟩

/-- A video job identical to `goodVidEnv` except that the extraction call
raises. -/
def badVidEnv : VidJobEnv :=
  ⟨"1", some "/tmp/data/r1/videos/1/video.mp4", true, 30, 300, 640, 480, 1048576,
   .error "ffmpeg error: scene pass failed", .ok ()⟩

/-- A video job that downloads and opens but reports fps = 0, so the probe
rejects it. -/
def rejectedVidEnv : VidJobEnv :=
  ⟨"1", some "/tmp/data/r1/videos/1/video.mp4", true, 0, 300, 640, 480, 1048576,
   .ok [], .ok ()⟩

/-- Scan oracles for a healthy environment: all frames present, the
classifier returns one low-score map per path, images readable. -/
def okScanEnv : ScanEnv :=
  ⟨fun _ => true, fun ps => .ok (ps.map (fun _ => [("nsfw", 1/10)])), fun _ => some (2, 3, 1/2)⟩

/-- Scan oracles identical to `okScanEnv` but with a high classifier score. -/
def nsfwScanEnv : ScanEnv :=
  ⟨fun _ => true, fun ps => .ok (ps.map (fun _ => [("nsfw", 9/10)])), fun _ => some (2, 3, 1/2)⟩

/-- An image job whose download succeeds with an allowed extension. -/
def imgJobOne : ImgJobEnv := ⟨"1", some "/tmp/data/r1/images/1.jpg"⟩

/- ====================  Rounding bounds  ==================== -/

theorem le_pyRoundInt (q : ℚ) : q - 1/2 ≤ (pyRoundInt q : ℚ) := by
  have h1 : (⌊q⌋ : ℚ) ≤ q := Int.floor_le q
  have h2 : q < (⌊q⌋ : ℚ) + 1 := Int.lt_floor_add_one q
  unfold pyRoundInt
  split_ifs <;> push_cast <;> linarith

theorem pyRoundInt_le (q : ℚ) : (pyRoundInt q : ℚ) ≤ q + 1/2 := by
  have h1 : (⌊q⌋ : ℚ) ≤ q := Int.floor_le q
  have h2 : q < (⌊q⌋ : ℚ) + 1 := Int.lt_floor_add_one q
  unfold pyRoundInt
  split_ifs <;> push_cast <;> linarith

theorem le_round2 (q : ℚ) : q - 1/200 ≤ round2 q := by
  have h := le_pyRoundInt (q * 100)
  unfold round2
  rw [le_div_iff₀ (by norm_num : (0:ℚ) < 100)]
  linarith

theorem round2_le (q : ℚ) : round2 q ≤ q + 1/200 := by
  have h := pyRoundInt_le (q * 100)
  unfold round2
  rw [div_le_iff₀ (by norm_num : (0:ℚ) < 100)]
  linarith

/- ====================  Deduplicator lemmas  ==================== -/

theorem addFramesAux_eq_foldl {h : Type} [DecidableEq h] (cap : ℕ) (hcap : cap ≠ 0) :
    ∀ (l : List h) (count : ℕ) (st : DedupState h),
      addFramesAux cap l count st = (l.take (cap - count)).foldl visitCandidate st := by
  intro l
  induction l with
  | nil => simp [addFramesAux]
  | cons x rest ih =>
    intro count st
    by_cases hc : cap ≤ count
    · have h0 : cap - count = 0 := Nat.sub_eq_zero_of_le hc
      rw [addFramesAux, if_pos ⟨hcap, hc⟩, h0]
      simp
    · have hsub : cap - count = (cap - (count + 1)) + 1 := by omega
      rw [addFramesAux, if_neg (by tauto), hsub, List.take_succ_cons, List.foldl_cons]
      exact ih (count + 1) _

theorem firstOcc_nil {h : Type} [DecidableEq h] : firstOcc ([] : List h) = [] := by
  rw [firstOcc.eq_def]

theorem firstOcc_cons {h : Type} [DecidableEq h] (x : h) (l : List h) :
    firstOcc (x :: l) = x :: firstOcc (l.filter (fun y => y ≠ x)) := by
  rw [firstOcc.eq_def]

theorem foldl_visitCandidate_final {h : Type} [DecidableEq h] :
    ∀ (xs : List h) (st : DedupState h),
      (xs.foldl visitCandidate st).final
        = st.final ++ firstOcc (xs.filter (fun y => y ∉ st.seen)) := by
  intro xs
  induction xs with
  | nil => intro st; simp [firstOcc_nil]
  | cons x rest ih =>
    intro st
    rw [List.foldl_cons]
    by_cases hx : x ∈ st.seen
    · rw [visitCandidate, if_pos hx, ih st]
      have hdrop : (x :: rest).filter (fun y => y ∉ st.seen)
          = rest.filter (fun y => y ∉ st.seen) := by
        rw [List.filter_cons]
        simp [hx]
      rw [hdrop]
    · rw [visitCandidate, if_neg hx, ih ⟨x :: st.seen, st.final ++ [x]⟩]
      have hcons : (x :: rest).filter (fun y => y ∉ st.seen)
          = x :: rest.filter (fun y => y ∉ st.seen) := by
        rw [List.filter_cons]
        simp [hx]
      rw [hcons, firstOcc_cons]
      have hfeq : rest.filter (fun y => y ∉ (⟨x :: st.seen, st.final ++ [x]⟩ : DedupState h).seen)
          = (rest.filter (fun y => y ∉ st.seen)).filter (fun y => y ≠ x) := by
        rw [List.filter_filter]
        apply List.filter_congr
        intro y _
        by_cases h1 : y = x <;> by_cases h2 : y ∈ st.seen <;> simp [h1, h2]
      rw [hfeq]
      simp

theorem mem_firstOcc {h : Type} [DecidableEq h] :
    ∀ (l : List h) (y : h), y ∈ firstOcc l ↔ y ∈ l := by
  intro l
  induction l using firstOcc.induct with
  | case1 => simp [firstOcc_nil]
  | case2 x rest ih =>
    intro y
    rw [firstOcc_cons]
    by_cases hy : y = x
    · simp [hy]
    · simp only [List.mem_cons, hy, false_or]
      rw [ih y]
      simp [List.mem_filter, hy]

theorem firstOcc_nodup {h : Type} [DecidableEq h] : ∀ (l : List h), (firstOcc l).Nodup := by
  intro l
  induction l using firstOcc.induct with
  | case1 => simp [firstOcc_nil]
  | case2 x rest ih =>
    rw [firstOcc_cons]
    refine List.nodup_cons.mpr ⟨?_, ih⟩
    intro hmem
    rw [mem_firstOcc] at hmem
    have := (List.mem_filter.mp hmem).2
    simp at this

theorem firstOcc_append {h : Type} [DecidableEq h] :
    ∀ (a b : List h), ∃ t, firstOcc (a ++ b) = firstOcc a ++ t := by
  intro a
  induction a using firstOcc.induct with
  | case1 => intro b; exact ⟨firstOcc b, by simp [firstOcc_nil]⟩
  | case2 x rest ih =>
    intro b
    obtain ⟨t, ht⟩ := ih (b.filter (fun y => y ≠ x))
    refine ⟨t, ?_⟩
    rw [List.cons_append, firstOcc_cons, List.filter_append, ht, firstOcc_cons]
    simp

theorem firstOcc_eq_self_of_nodup {h : Type} [DecidableEq h] :
    ∀ (l : List h), l.Nodup → firstOcc l = l := by
  intro l
  induction l using firstOcc.induct with
  | case1 => intro _; exact firstOcc_nil
  | case2 x rest ih =>
    intro hnd
    have hx : x ∉ rest := (List.nodup_cons.mp hnd).1
    have hrest : rest.Nodup := (List.nodup_cons.mp hnd).2
    have hfe : rest.filter (fun y => y ≠ x) = rest := by
      apply List.filter_eq_self.mpr
      intro y hy
      simp only [decide_eq_true_eq]
      intro he
      exact hx (he ▸ hy)
    rw [hfe] at ih
    rw [firstOcc_cons, hfe, ih hrest]

theorem deduplicate_eq_firstOcc {n h : Type} [LinearOrder n] [DecidableEq h]
    (sceneDir fpsDir spikeDir : List (n × h)) :
    deduplicate sceneDir fpsDir spikeDir = firstOcc (visitSeq sceneDir fpsDir spikeDir) := by
  unfold deduplicate addFrames
  rw [addFramesAux_eq_foldl addFramesDefaultCap (by norm_num [addFramesDefaultCap]),
      addFramesAux_eq_foldl maxFpsFrames (by norm_num [maxFpsFrames]),
      addFramesAux_eq_foldl addFramesDefaultCap (by norm_num [addFramesDefaultCap])]
  simp only [Nat.sub_zero]
  rw [← List.foldl_append, ← List.foldl_append]
  rw [foldl_visitCandidate_final]
  unfold visitSeq
  have hfil : ∀ (A : List h),
      List.filter (fun y => decide (y ∉ (⟨[], []⟩ : DedupState h).seen)) A = A := by
    intro A
    apply List.filter_eq_self.mpr
    intro y _
    simp
  rw [hfil]
  simp [List.append_assoc]

/-- C10: given fixed staging-directory contents the Deduplicator's output is
a deterministic sequence (a pure function of the contents) equal to the
first-occurrence filtering of the candidate visit sequence — scene, fps,
spike directories in that priority order, sorted filename order within each —
so it contains each visited content hash exactly once, ordered by first
encounter, and appending later candidates never displaces or reorders
earlier claims (first writer wins). -/
theorem C10_dedup_deterministic_first_encounter
    (sceneDir fpsDir spikeDir : List (String × String)) :
    deduplicate sceneDir fpsDir spikeDir = firstOcc (visitSeq sceneDir fpsDir spikeDir)
    ∧ (deduplicate sceneDir fpsDir spikeDir).Nodup
    ∧ (∀ x, x ∈ deduplicate sceneDir fpsDir spikeDir ↔ x ∈ visitSeq sceneDir fpsDir spikeDir)
    ∧ ∀ extra : List String, ∃ t,
        firstOcc (visitSeq sceneDir fpsDir spikeDir ++ extra)
          = firstOcc (visitSeq sceneDir fpsDir spikeDir) ++ t := by
  refine ⟨deduplicate_eq_firstOcc _ _ _, ?_, ?_, ?_⟩
  · rw [deduplicate_eq_firstOcc]
    exact firstOcc_nodup _
  · intro x
    rw [deduplicate_eq_firstOcc]
    exact mem_firstOcc _ x
  · intro extra
    exact firstOcc_append _ _

theorem C10_witness :
    deduplicate [(("a" : String), ("h1" : String))] [] []
      = firstOcc (visitSeq [("a", "h1")] [] []) :=
  (C10_dedup_deterministic_first_encounter [("a", "h1")] [] []).1

theorem sortByName_bigSceneDir : sortByName bigSceneDir = bigSceneDir := by
  apply List.Sorted.insertionSort_eq
  unfold bigSceneDir
  exact (List.pairwise_map.mpr ((List.pairwise_lt_range 251).imp (fun hab => le_of_lt hab)))

theorem bigSceneDir_snd : bigSceneDir.map Prod.snd = List.range 251 := by
  unfold bigSceneDir
  rw [List.map_map]
  have hid : (Prod.snd ∘ fun i : ℕ => (i, i)) = id := rfl
  rw [hid, List.map_id]

/-- C5 counterexample: the scene staging directory is not uncapped — a scene
directory with 251 distinct-content files loses its 251st file (sorted
order) to the `add_frames` default cap of 250, so that file is never
visited and its hash is absent from the dedup output. -/
theorem C5_counterexample :
    ((250, 250) : ℕ × ℕ) ∈ bigSceneDir
    ∧ (bigSceneDir.map Prod.snd).Nodup
    ∧ (250 : ℕ) ∉ deduplicate bigSceneDir [] [] := by
  have hded : deduplicate bigSceneDir [] [] = List.range 250 := by
    rw [deduplicate_eq_firstOcc]
    unfold visitSeq
    rw [sortByName_bigSceneDir]
    have h1 : (sortByName ([] : List (ℕ × ℕ))) = [] := rfl
    rw [h1]
    simp only [List.map_nil, List.take_nil, List.append_nil]
    have h2 : bigSceneDir.map Prod.snd = List.range 251 := bigSceneDir_snd
    rw [h2, List.take_range]
    have h3 : min addFramesDefaultCap 251 = 250 := by norm_num [addFramesDefaultCap]
    rw [h3]
    exact firstOcc_eq_self_of_nodup _ (List.nodup_range 250)
  refine ⟨?_, ?_, ?_⟩
  · unfold bigSceneDir
    exact List.mem_map.mpr ⟨250, by simp, rfl⟩
  · rw [bigSceneDir_snd]
    exact List.nodup_range 251
  · rw [hded]
    simp

/-- C5 amended: during deduplication the uniform/fps staging directory is
capped at `max_fps_frames` (default 60), while the scene and spike staging
directories are not uncapped but subject to the `add_frames` default cap of
250 candidates each; every file in the scene and spike directories is
visited — its hash reaching the output — provided each of those directories
holds at most 250 files. -/
theorem C5_amended (sceneDir fpsDir spikeDir : List (String × String))
    (hs : sceneDir.length ≤ 250) (hk : spikeDir.length ≤ 250) :
    deduplicate sceneDir fpsDir spikeDir = firstOcc (visitSeq sceneDir fpsDir spikeDir)
    ∧ ∀ fh ∈ sceneDir ++ spikeDir, fh.2 ∈ deduplicate sceneDir fpsDir spikeDir := by
  refine ⟨deduplicate_eq_firstOcc _ _ _, ?_⟩
  intro fh hmem
  rw [deduplicate_eq_firstOcc, mem_firstOcc]
  unfold visitSeq
  have hslen : ∀ (d : List (String × String)), ((sortByName d).map Prod.snd).length = d.length := by
    intro d
    rw [List.length_map]
    exact (List.perm_insertionSort _ d).length_eq
  rcases List.mem_append.mp hmem with hsc | hsp
  · apply List.mem_append_left
    apply List.mem_append_left
    rw [List.take_of_length_le (by rw [hslen]; exact le_trans hs (by norm_num [addFramesDefaultCap]))]
    exact List.mem_map_of_mem Prod.snd ((List.perm_insertionSort _ sceneDir).mem_iff.mpr hsc)
  · apply List.mem_append_right
    rw [List.take_of_length_le (by rw [hslen]; exact le_trans hk (by norm_num [addFramesDefaultCap]))]
    exact List.mem_map_of_mem Prod.snd ((List.perm_insertionSort _ spikeDir).mem_iff.mpr hsp)

theorem C5_witness :
    ([(("a" : String), ("h1" : String))].length ≤ 250
      ∧ [(("b" : String), ("h2" : String))].length ≤ 250)
    ∧ (deduplicate [("a", "h1")] [] [("b", "h2")]
          = firstOcc (visitSeq [("a", "h1")] [] [("b", "h2")])
        ∧ ∀ fh ∈ [("a", "h1")] ++ [("b", "h2")],
            fh.2 ∈ deduplicate [("a", "h1")] [] [("b", "h2")]) :=
  ⟨⟨by norm_num, by norm_num⟩, C5_amended _ _ _ (by norm_num) (by norm_num)⟩

/- ====================  Readiness barrier lemmas  ==================== -/

theorem missingAt_isEmpty (diskAt : ℕ → String → Bool) (paths : List String) (t : ℕ) :
    (missingAt diskAt paths t).isEmpty = true ↔ ∀ p ∈ paths, diskAt t p = true := by
  unfold missingAt
  rw [List.isEmpty_iff, List.filter_eq_nil_iff]
  constructor
  · intro h p hp
    have := h p hp
    simpa using this
  · intro h p hp
    simpa using h p hp

theorem retryMissing_isEmpty (diskAt : ℕ → String → Bool) (paths : List String) :
    ∀ (r t : ℕ), 1 ≤ r →
      ((retryMissing diskAt paths t r).isEmpty = true
        ↔ ∃ s, t ≤ s ∧ s < t + r ∧ (missingAt diskAt paths s).isEmpty = true) := by
  intro r
  induction r with
  | zero => intro t h; exact absurd h (by omega)
  | succ k ih =>
    intro t _
    cases k with
    | zero =>
      rw [show retryMissing diskAt paths t 1 = missingAt diskAt paths t from rfl]
      constructor
      · intro h
        exact ⟨t, le_refl t, by omega, h⟩
      · rintro ⟨s, hs1, hs2, hs3⟩
        have hst : s = t := by omega
        exact hst ▸ hs3
    | succ k' =>
      rw [show retryMissing diskAt paths t (k' + 2)
            = (if (missingAt diskAt paths t).isEmpty then missingAt diskAt paths t
               else retryMissing diskAt paths (t + 1) (k' + 1)) from rfl]
      by_cases hm : (missingAt diskAt paths t).isEmpty = true
      · rw [if_pos hm]
        constructor
        · intro h
          exact ⟨t, le_refl t, by omega, h⟩
        · intro _
          exact hm
      · rw [if_neg hm, ih (t + 1) (by omega)]
        constructor
        · rintro ⟨s, hs1, hs2, hs3⟩
          exact ⟨s, by omega, by omega, hs3⟩
        · rintro ⟨s, hs1, hs2, hs3⟩
          refine ⟨s, ?_, by omega, hs3⟩
          rcases Nat.eq_or_lt_of_le hs1 with he | hl
          · exact absurd (he ▸ hs3) hm
          · omega

/-- C7: the readiness marker is produced exactly when every claimed
final-frame path is verified present at one of the bounded checks (the
initial scan plus 10 retries, approximately 2.5 seconds of budget), and it
then records `total_frames` equal to the number of claimed frames; when some
frame is still missing after the whole retry budget, extraction raises a
not-found error and no marker is produced. -/
theorem C7_readiness_marker (diskAt : ℕ → String → Bool) (paths : List String) :
    ((∃ mk, finalizeExtraction diskAt paths = .ok mk ∧ mk.total_frames = paths.length)
        ↔ ∃ t ≤ 10, ∀ p ∈ paths, diskAt t p = true)
    ∧ (finalizeExtraction diskAt paths = .error ()
        ↔ ¬ ∃ t ≤ 10, ∀ p ∈ paths, diskAt t p = true) := by
  unfold finalizeExtraction
  by_cases h0 : (missingAt diskAt paths 0).isEmpty = true
  · rw [if_pos h0]
    have hex : ∃ t ≤ 10, ∀ p ∈ paths, diskAt t p = true :=
      ⟨0, by omega, (missingAt_isEmpty diskAt paths 0).mp h0⟩
    constructor
    · exact ⟨fun _ => hex, fun _ => ⟨⟨paths.length⟩, rfl, rfl⟩⟩
    · constructor
      · intro h
        exact absurd h (by simp)
      · intro h
        exact absurd hex h
  · rw [if_neg h0]
    by_cases hm : (retryMissing diskAt paths 1 10).isEmpty = true
    · rw [if_pos hm]
      obtain ⟨s, hs1, hs2, hs3⟩ := (retryMissing_isEmpty diskAt paths 10 1 (by omega)).mp hm
      have hex : ∃ t ≤ 10, ∀ p ∈ paths, diskAt t p = true :=
        ⟨s, by omega, (missingAt_isEmpty diskAt paths s).mp hs3⟩
      constructor
      · exact ⟨fun _ => hex, fun _ => ⟨⟨paths.length⟩, rfl, rfl⟩⟩
      · constructor
        · intro h
          exact absurd h (by simp)
        · intro h
          exact absurd hex h
    · rw [if_neg hm]
      have hnex : ¬ ∃ t ≤ 10, ∀ p ∈ paths, diskAt t p = true := by
        rintro ⟨t, ht, hall⟩
        have hte : (missingAt diskAt paths t).isEmpty = true :=
          (missingAt_isEmpty diskAt paths t).mpr hall
        cases Nat.eq_zero_or_pos t with
        | inl h => exact h0 (h ▸ hte)
        | inr h =>
          exact hm ((retryMissing_isEmpty diskAt paths 10 1 (by omega)).mpr
            ⟨t, by omega, by omega, hte⟩)
      constructor
      · constructor
        · rintro ⟨mk, hmk, _⟩
          exact absurd hmk (by simp)
        · intro h
          exact absurd h hnex
      · exact ⟨fun _ => hnex, fun _ => rfl⟩

theorem C7_witness :
    (∃ mk, finalizeExtraction (fun _ _ => true) ["a"] = .ok mk
        ∧ mk.total_frames = (["a"] : List String).length)
      ↔ ∃ t ≤ 10, ∀ p ∈ (["a"] : List String), (fun _ _ => true : ℕ → String → Bool) t p = true :=
  (C7_readiness_marker (fun _ _ => true) ["a"]).1

/- ====================  Spike detector lemmas  ==================== -/

theorem spikeLoop_nil (fps : ℚ) (step : ℕ) (idx : ℕ) (prev : Option (List ℕ)) (lastSpike : ℚ) :
    spikeLoop fps step [] idx prev lastSpike = [] := rfl

theorem spikeLoop_cons (fps : ℚ) (step : ℕ) (frame : List ℕ) (rest : List (List ℕ))
    (idx : ℕ) (prev : Option (List ℕ)) (lastSpike : ℚ) :
    spikeLoop fps step (frame :: rest) idx prev lastSpike =
      if idx % step ≠ 0 then spikeLoop fps step rest (idx + 1) prev lastSpike
      else
        match prev with
        | none => spikeLoop fps step rest (idx + 1) (some frame) lastSpike
        | some pg =>
          if diffThresh < absDiffMean frame pg
              ∧ suppressionWindow ≤ (idx : ℚ) / fps - lastSpike then
            round2 ((idx : ℚ) / fps)
              :: spikeLoop fps step rest (idx + 1) (some frame) ((idx : ℚ) / fps)
          else spikeLoop fps step rest (idx + 1) (some frame) lastSpike := rfl

theorem spikeLoop_spec (fps : ℚ) (step : ℕ) :
    ∀ (frames : List (List ℕ)) (idx : ℕ) (prev : Option (List ℕ)) (lastSpike : ℚ),
      (∀ t ∈ spikeLoop fps step frames idx prev lastSpike,
          (lastSpike + 1 - 1/200 ≤ t ∧ ∃ i : ℕ, t = round2 ((i : ℚ) / fps)))
      ∧ (spikeLoop fps step frames idx prev lastSpike).Chain' (· < ·) := by
  intro frames
  induction frames with
  | nil =>
    intro idx prev lastSpike
    simp [spikeLoop_nil]
  | cons frame rest ih =>
    intro idx prev lastSpike
    by_cases hskip : idx % step ≠ 0
    · rw [spikeLoop_cons, if_pos hskip]
      exact ih (idx + 1) prev lastSpike
    · rw [spikeLoop_cons, if_neg hskip]
      cases prev with
      | none => exact ih (idx + 1) (some frame) lastSpike
      | some pg =>
        simp only
        by_cases hrec : diffThresh < absDiffMean frame pg
            ∧ suppressionWindow ≤ (idx : ℚ) / fps - lastSpike
        · rw [if_pos hrec]
          obtain ⟨ihA, ihC⟩ := ih (idx + 1) (some frame) ((idx : ℚ) / fps)
          have hsup : (1 : ℚ) ≤ (idx : ℚ) / fps - lastSpike := by
            have := hrec.2
            rw [suppressionWindow] at this
            exact this
          constructor
          · intro t ht
            rcases List.mem_cons.mp ht with heq | htail
            · subst heq
              refine ⟨?_, ⟨idx, rfl⟩⟩
              have h1 := le_round2 ((idx : ℚ) / fps)
              linarith
            · obtain ⟨hb, hi⟩ := ihA t htail
              exact ⟨by linarith, hi⟩
          · rw [List.chain'_cons']
            refine ⟨?_, ihC⟩
            intro y hy
            have hytail : y ∈ spikeLoop fps step rest (idx + 1) (some frame) ((idx : ℚ) / fps) :=
              List.mem_of_mem_head? hy
            obtain ⟨hb, _⟩ := ihA y hytail
            have h3 := round2_le ((idx : ℚ) / fps)
            linarith
        · rw [if_neg hrec]
          exact ih (idx + 1) (some frame) lastSpike

/-- C6 counterexample: the Spike Detector does not terminate cleanly for
every reported fps value — a source reporting fps = 5 (any fps strictly
between 0 and 10) gives a sampling stride int(fps * 0.1) = 0, and the very
first `frame_idx % step` evaluation raises ZeroDivisionError instead of
returning a sequence. -/
theorem C6_counterexample : detectLumaSpikeTimestamps ⟨5, []⟩ = .error () := by
  unfold detectLumaSpikeTimestamps
  rw [if_neg (by norm_num : ¬ ((⟨5, []⟩ : VideoSource).fps = 0))]
  rw [if_pos]
  show pyInt ((⟨5, []⟩ : VideoSource).fps * sampleInterval) ≤ 0
  rw [show (⟨5, []⟩ : VideoSource).fps = 5 from rfl]
  rw [pyInt, sampleInterval]
  norm_num

/-- C6 amended: when the source reports fps = 0 the Spike Detector returns
an empty sequence rather than an error, and whenever the sampling stride
int(fps * 0.1) is at least 1 (in particular for every fps ≥ 10) it
terminates without raising and returns a strictly increasing sequence of
timestamps, each a two-decimal rounding of a sampled-frame time; but for
fps strictly between 0 and 10 the stride is 0 and the detector raises
ZeroDivisionError, so termination without raising does not hold for every
reported fps value. -/
theorem C6_amended (v : VideoSource) :
    (v.fps = 0 → detectLumaSpikeTimestamps v = .ok [])
    ∧ (1 ≤ pyInt (v.fps * sampleInterval) →
        ∃ l, detectLumaSpikeTimestamps v = .ok l
          ∧ l.Chain' (· < ·)
          ∧ ∀ t ∈ l, ∃ i : ℕ, t = round2 ((i : ℚ) / v.fps)) := by
  constructor
  · intro h0
    unfold detectLumaSpikeTimestamps
    rw [if_pos h0]
  · intro hstep
    unfold detectLumaSpikeTimestamps
    have hfps : ¬ (v.fps = 0) := by
      intro h
      rw [h] at hstep
      norm_num [pyInt, sampleInterval] at hstep
    rw [if_neg hfps, if_neg (by omega : ¬ (pyInt (v.fps * sampleInterval) ≤ 0))]
    refine ⟨_, rfl, ?_, ?_⟩
    · exact (spikeLoop_spec v.fps _ v.frames 0 none (-suppressionWindow)).2
    · intro t ht
      exact (((spikeLoop_spec v.fps _ v.frames 0 none (-suppressionWindow)).1) t ht).2

theorem C6_witness :
    (1 ≤ pyInt ((⟨10, []⟩ : VideoSource).fps * sampleInterval))
    ∧ ∃ l, detectLumaSpikeTimestamps ⟨10, []⟩ = .ok l
        ∧ l.Chain' (· < ·)
        ∧ ∀ t ∈ l, ∃ i : ℕ, t = round2 ((i : ℚ) / (⟨10, []⟩ : VideoSource).fps) :=
  ⟨by norm_num [pyInt, sampleInterval], (C6_amended ⟨10, []⟩).2 (by norm_num [pyInt, sampleInterval])⟩

/- ====================  Scan and aggregation lemmas  ==================== -/

theorem pickMax_nil (b : FrameResult) : pickMax b [] = b := rfl

theorem pickMax_cons (b f : FrameResult) (rest : List FrameResult) :
    pickMax b (f :: rest)
      = if b.nsfw_score < f.nsfw_score then pickMax f rest else pickMax b rest := rfl

theorem pickMax_ge (l : List FrameResult) :
    ∀ (b : FrameResult), b.nsfw_score ≤ (pickMax b l).nsfw_score
      ∧ ∀ f ∈ l, f.nsfw_score ≤ (pickMax b l).nsfw_score := by
  induction l with
  | nil => intro b; simp [pickMax_nil]
  | cons f rest ih =>
    intro b
    rw [pickMax_cons]
    by_cases hlt : b.nsfw_score < f.nsfw_score
    · rw [if_pos hlt]
      refine ⟨le_trans (le_of_lt hlt) (ih f).1, ?_⟩
      intro g hg
      rcases List.mem_cons.mp hg with heq | hgr
      · exact heq ▸ (ih f).1
      · exact (ih f).2 g hgr
    · rw [if_neg hlt]
      refine ⟨(ih b).1, ?_⟩
      intro g hg
      rcases List.mem_cons.mp hg with heq | hgr
      · exact heq ▸ le_trans (le_of_not_lt hlt) (ih b).1
      · exact (ih b).2 g hgr

theorem pickMax_first (l : List FrameResult) :
    ∀ (b : FrameResult), ∃ pre post, b :: l = pre ++ (pickMax b l) :: post
      ∧ ∀ f ∈ pre, f.nsfw_score < (pickMax b l).nsfw_score := by
  induction l with
  | nil => intro b; exact ⟨[], [], rfl, by simp⟩
  | cons f rest ih =>
    intro b
    rw [pickMax_cons]
    by_cases hlt : b.nsfw_score < f.nsfw_score
    · rw [if_pos hlt]
      obtain ⟨pre, post, heq, hpre⟩ := ih f
      refine ⟨b :: pre, post, ?_, ?_⟩
      · rw [List.cons_append, ← heq]
      · intro g hg
        rcases List.mem_cons.mp hg with heq2 | hgpre
        · subst heq2
          exact lt_of_lt_of_le hlt (pickMax_ge rest f).1
        · exact hpre g hgpre
    · rw [if_neg hlt]
      obtain ⟨pre, post, heq, hpre⟩ := ih b
      cases pre with
      | nil =>
        simp only [List.nil_append] at heq
        have hb : b = pickMax b rest := (List.cons_eq_cons.mp heq).1
        refine ⟨[], f :: rest, ?_, by simp⟩
        rw [List.nil_append, ← hb]
      | cons p pre2 =>
        simp only [List.cons_append] at heq
        obtain ⟨hpb, hrest⟩ := List.cons_eq_cons.mp heq
        have hbmax : b.nsfw_score < (pickMax b rest).nsfw_score := by
          nth_rewrite 1 [hpb]
          exact hpre p (List.mem_cons_self p pre2)
        refine ⟨b :: f :: pre2, post, ?_, ?_⟩
        · rw [List.cons_append, List.cons_append]
          exact congrArg (List.cons b) (congrArg (List.cons f) hrest)
        · intro g hg
          rcases List.mem_cons.mp hg with hg1 | hg2
          · exact hg1 ▸ hbmax
          · rcases List.mem_cons.mp hg2 with hg3 | hg4
            · exact hg3 ▸ lt_of_le_of_lt (le_of_not_lt hlt) hbmax
            · exact hpre g (List.mem_cons_of_mem p hg4)

theorem mem_zipWith {α β γ : Type} (f : α → β → γ) :
    ∀ (as : List α) (bs : List β) (x : γ), x ∈ List.zipWith f as bs →
      ∃ a b, a ∈ as ∧ b ∈ bs ∧ x = f a b := by
  intro as
  induction as with
  | nil => intro bs x hx; simp at hx
  | cons a as2 ih =>
    intro bs x hx
    cases bs with
    | nil => simp at hx
    | cons b bs2 =>
      rw [List.zipWith_cons_cons] at hx
      rcases List.mem_cons.mp hx with heq | hmem
      · exact ⟨a, b, List.mem_cons_self _ _, List.mem_cons_self _ _, heq⟩
      · obtain ⟨a2, b2, ha, hb, hx2⟩ := ih bs2 x hmem
        exact ⟨a2, b2, List.mem_cons_of_mem _ ha, List.mem_cons_of_mem _ hb, hx2⟩

theorem zipWith_snd_map {α β γ : Type} (g : β → γ) :
    ∀ (as : List α) (bs : List β), as.length = bs.length →
      List.zipWith (fun _ b => g b) as bs = bs.map g := by
  intro as
  induction as with
  | nil =>
    intro bs hlen
    cases bs with
    | nil => rfl
    | cons b bs2 => simp at hlen
  | cons a as2 ih =>
    intro bs hlen
    cases bs with
    | nil => simp at hlen
    | cons b bs2 =>
      rw [List.zipWith_cons_cons, List.map_cons, ih bs2 (by simpa using hlen)]

theorem mkVideoVerdict_cons (jobId : String) (meta : Option VideoMetadata)
    (f : FrameResult) (rest : List FrameResult) :
    mkVideoVerdict jobId meta (f :: rest)
      = some ⟨(meta.map VideoMetadata.original_filename).getD jobId,
              (f :: rest).any FrameResult.is_nsfw,
              (pickMax f rest).nsfw_score,
              round4 (((f :: rest).map FrameResult.nsfw_score).sum / (((f :: rest).length : ℚ))),
              (pickMax f rest).full_probs,
              (f :: rest).length,
              engineVersion,
              meta.map VideoMetadata.width,
              meta.map VideoMetadata.height,
              meta.map VideoMetadata.duration,
              meta.map VideoMetadata.fps,
              meta.map VideoMetadata.size_mb,
              none⟩ := rfl

/-- C8: for a video job whose scan succeeds on a non-empty path list (one
probability map per path, as the classifier contract guarantees), the
Verdict's `is_nsfw` is true exactly when some frame's score exceeds the 0.5
threshold (each frame's own `is_nsfw` flag is exactly that comparison),
`nsfw_score_max` and the reported `full_probs` come from the first frame, in
frame order, attaining the maximal score (every frame scores no higher, and
all earlier frames score strictly lower), and `nsfw_score_avg` is the mean
of all frame scores rounded to 4 decimals. -/
theorem C8_video_verdict_aggregation (paths : List String) (probsList : List Probs)
    (jobId : String) (meta : Option VideoMetadata) (m : String → Option (ℤ × ℤ × ℚ))
    (hne : paths ≠ []) (hlen : paths.length = probsList.length) :
    ∃ frs v,
      scanFrames "videos" paths true (.ok probsList) m = .ok frs
      ∧ mkVideoVerdict jobId meta frs = some v
      ∧ (v.is_nsfw = true ↔ ∃ pr ∈ probsList, 1/2 < nsfwScoreOf pr)
      ∧ (∀ f ∈ frs, f.is_nsfw = true ↔ 1/2 < f.nsfw_score)
      ∧ (∀ f ∈ frs, f.nsfw_score ≤ v.nsfw_score_max)
      ∧ (∃ pre mostF post, frs = pre ++ mostF :: post
          ∧ v.nsfw_score_max = mostF.nsfw_score
          ∧ v.full_probs = mostF.full_probs
          ∧ ∀ f ∈ pre, f.nsfw_score < mostF.nsfw_score)
      ∧ v.nsfw_score_avg = round4 ((frs.map FrameResult.nsfw_score).sum / ((frs.length : ℚ))) := by
  cases paths with
  | nil => exact absurd rfl hne
  | cons p ps =>
  cases probsList with
  | nil => simp at hlen
  | cons pr prs =>
  have hlen2 : ps.length = prs.length := by simpa using hlen
  set f0 : FrameResult :=
    videoFrameResult ⟨p, decide (1/2 < nsfwScoreOf pr), nsfwScoreOf pr, pr⟩ with hf0
  set rest0 : List FrameResult :=
    (List.zipWith (fun p2 pr2 => (⟨p2, decide (1/2 < nsfwScoreOf pr2), nsfwScoreOf pr2, pr2⟩ : ScanTuple)) ps prs).map videoFrameResult with hrest0
  have hfrs : (scanImagesForNsfw (p :: ps) (pr :: prs)).map videoFrameResult = f0 :: rest0 := rfl
  have hA : scanFrames "videos" (p :: ps) true (.ok (pr :: prs)) m = .ok (f0 :: rest0) := by
    rw [← hfrs]
    rfl
  have hmemchar : ∀ f ∈ f0 :: rest0, ∃ pr2,
      pr2 ∈ pr :: prs ∧ f.is_nsfw = decide (1/2 < nsfwScoreOf pr2)
        ∧ f.nsfw_score = nsfwScoreOf pr2 ∧ f.full_probs = pr2 := by
    intro f hf
    rw [← hfrs] at hf
    unfold scanImagesForNsfw at hf
    rw [List.map_zipWith] at hf
    obtain ⟨a, b, _, hb, heq⟩ := mem_zipWith _ _ _ _ hf
    exact ⟨b, hb, by rw [heq]; rfl, by rw [heq]; rfl, by rw [heq]; rfl⟩
  have hmap : (f0 :: rest0).map FrameResult.is_nsfw
      = (pr :: prs).map (fun pr2 => decide (1/2 < nsfwScoreOf pr2)) := by
    rw [← hfrs]
    unfold scanImagesForNsfw
    rw [List.map_zipWith, List.map_zipWith]
    exact zipWith_snd_map _ (p :: ps) (pr :: prs) hlen
  refine ⟨f0 :: rest0, _, hA, mkVideoVerdict_cons jobId meta f0 rest0, ?_, ?_, ?_, ?_, rfl⟩
  · -- is_nsfw iff some score exceeds the threshold
    show (f0 :: rest0).any FrameResult.is_nsfw = true ↔ ∃ pr2 ∈ pr :: prs, 1/2 < nsfwScoreOf pr2
    rw [List.any_eq_true]
    constructor
    · rintro ⟨f, hf, hfn⟩
      obtain ⟨pr2, hpr2, hn, _, _⟩ := hmemchar f hf
      rw [hn] at hfn
      exact ⟨pr2, hpr2, by simpa using hfn⟩
    · rintro ⟨pr2, hpr2, hlt⟩
      have h2 : decide (1/2 < nsfwScoreOf pr2) ∈ (f0 :: rest0).map FrameResult.is_nsfw := by
        rw [hmap]
        exact List.mem_map_of_mem _ hpr2
      obtain ⟨f, hf, hfe⟩ := List.mem_map.mp h2
      exact ⟨f, hf, by rw [hfe]; exact decide_eq_true hlt⟩
  · -- each frame's own flag is the 0.5 comparison
    intro f hf
    obtain ⟨pr2, _, hn, hs, _⟩ := hmemchar f hf
    rw [hn, hs]
    simp
  · -- the max bounds every frame score
    intro f hf
    show f.nsfw_score ≤ (pickMax f0 rest0).nsfw_score
    rcases List.mem_cons.mp hf with heq | hmem
    · exact heq ▸ (pickMax_ge rest0 f0).1
    · exact (pickMax_ge rest0 f0).2 f hmem
  · -- first occurrence of the maximum supplies max and full_probs
    obtain ⟨pre, post, heq, hpre⟩ := pickMax_first rest0 f0
    exact ⟨pre, pickMax f0 rest0, post, heq, rfl, rfl, hpre⟩

theorem C8_witness :
    ((["a", "b", "c"] : List String) ≠ []
      ∧ (["a", "b", "c"] : List String).length
          = ([[("nsfw", 1/10)], [("nsfw", 9/10)], [("nsfw", 1/2)]] : List Probs).length)
    ∧ (∃ frs v, scanFrames "videos" ["a", "b", "c"] true
          (.ok [[("nsfw", 1/10)], [("nsfw", 9/10)], [("nsfw", 1/2)]]) (fun _ => none) = .ok frs
        ∧ mkVideoVerdict "job1" none frs = some v
        ∧ (v.is_nsfw = true ↔ ∃ pr ∈ ([[("nsfw", 1/10)], [("nsfw", 9/10)], [("nsfw", 1/2)]] :
              List Probs), 1/2 < nsfwScoreOf pr)
        ∧ (∀ f ∈ frs, f.is_nsfw = true ↔ 1/2 < f.nsfw_score)
        ∧ (∀ f ∈ frs, f.nsfw_score ≤ v.nsfw_score_max)
        ∧ (∃ pre mostF post, frs = pre ++ mostF :: post
            ∧ v.nsfw_score_max = mostF.nsfw_score
            ∧ v.full_probs = mostF.full_probs
            ∧ ∀ f ∈ pre, f.nsfw_score < mostF.nsfw_score)
        ∧ v.nsfw_score_avg = round4 ((frs.map FrameResult.nsfw_score).sum / ((frs.length : ℚ))))
    ∧ mkVideoVerdict "job1" none
        [⟨"a", false, 1/10, [("nsfw", 1/10)], none, none, none, none⟩,
         ⟨"b", true, 9/10, [("nsfw", 9/10)], none, none, none, none⟩,
         ⟨"c", false, 1/2, [("nsfw", 1/2)], none, none, none, none⟩]
      = some ⟨"job1", true, 9/10, 1/2, [("nsfw", 9/10)], 3, engineVersion,
              none, none, none, none, none, none⟩ :=
  ⟨⟨by simp, rfl⟩,
   C8_video_verdict_aggregation ["a", "b", "c"]
     [[("nsfw", 1/10)], [("nsfw", 9/10)], [("nsfw", 1/2)]] "job1" none (fun _ => none)
     (by simp) rfl,
   by
     rw [mkVideoVerdict_cons]
     norm_num [pickMax_cons, pickMax_nil, round4, pyRoundInt]⟩

/-- C9: when the classification/reshaping stage of the Scan Dispatcher
raises (classifier exception or unreadable image) on a non-empty input list,
the job is not failed: the dispatcher returns exactly one FrameResult per
input path — never fewer results than inputs — each with `is_nsfw=false`,
`nsfw_score=0.0`, empty probabilities, and `error` set to the exception's
message. -/
theorem C9_scan_degradation (mediaType : String) (paths : List String)
    (classifierRes : Except String (List Probs)) (m : String → Option (ℤ × ℤ × ℚ)) (e : String)
    (hne : paths ≠ [])
    (hexc : scanFramesTry mediaType paths classifierRes m = .error e) :
    scanFrames mediaType paths true classifierRes m = .ok (paths.map (degradedFrameResult e))
    ∧ (paths.map (degradedFrameResult e)).length = paths.length
    ∧ ∀ r ∈ paths.map (degradedFrameResult e),
        r.is_nsfw = false ∧ r.nsfw_score = 0 ∧ r.full_probs = [] ∧ r.error = some e := by
  have hpe : paths.isEmpty = false := by
    cases paths with
    | nil => exact absurd rfl hne
    | cons a l => rfl
  refine ⟨?_, List.length_map _ _, ?_⟩
  · simp [scanFrames, hpe, hexc]
  · intro r hr
    obtain ⟨p2, _, hp⟩ := List.mem_map.mp hr
    rw [← hp]
    exact ⟨rfl, rfl, rfl, rfl⟩

theorem C9_witness :
    ((["x.jpg"] : List String) ≠ []
      ∧ scanFramesTry "videos" ["x.jpg"] (.error "classifier crashed") (fun _ => none)
          = .error "classifier crashed")
    ∧ (scanFrames "videos" ["x.jpg"] true (.error "classifier crashed") (fun _ => none)
          = .ok (["x.jpg"].map (degradedFrameResult "classifier crashed"))
        ∧ (["x.jpg"].map (degradedFrameResult "classifier crashed")).length
            = (["x.jpg"] : List String).length
        ∧ ∀ r ∈ ["x.jpg"].map (degradedFrameResult "classifier crashed"),
            r.is_nsfw = false ∧ r.nsfw_score = 0 ∧ r.full_probs = []
              ∧ r.error = some "classifier crashed") :=
  ⟨⟨by simp, rfl⟩, C9_scan_degradation "videos" ["x.jpg"] (.error "classifier crashed")
    (fun _ => none) "classifier crashed" (by simp) rfl⟩

/- ====================  Preprocessor and entrypoint lemmas  ==================== -/

theorem preprocessVideos_nil : preprocessVideos [] = .ok ([], []) := rfl

theorem preprocessVideos_cons (e : VidJobEnv) (rest : List VidJobEnv) :
    preprocessVideos (e :: rest)
      = (stepVideoJob e).bind (fun p1 =>
          (preprocessVideos rest).bind (fun p2 => .ok (p1.1 ++ p2.1, p1.2 ++ p2.2))) := by
  cases hs : stepVideoJob e with
  | error err =>
    simp only [preprocessVideos, hs]
    rfl
  | ok p1 =>
    cases hp : preprocessVideos rest with
    | error err =>
      simp only [preprocessVideos, hs, hp]
      rfl
    | ok p2 =>
      simp only [preprocessVideos, hs, hp]
      rfl

theorem stepVideoJob_probe_reject (e : VidJobEnv) (path : String)
    (hd : e.download = some path)
    (hext : extOfLower path ∈ ALLOWED_VIDEO_EXTENSIONS)
    (hop : e.opened = true)
    (hrej : e.fps ≤ 0 ∨ e.frame_count ≤ 0 ∨ MAX_VIDEO_DURATION < e.frame_count / e.fps) :
    stepVideoJob e = .ok ([⟨e.job_id, [], none⟩], []) := by
  obtain ⟨jid, dl, op, fps, fc, w, hgt, sz, exr, dw⟩ := e
  simp only at hd hop hrej ⊢
  subst hd
  subst hop
  unfold stepVideoJob
  simp only
  rw [if_neg (not_not_intro hext)]
  simp only [Bool.not_true]
  rw [if_neg (by simp : ¬ (false = true))]
  rcases hrej with h1 | h2 | h3
  · rw [if_pos (Or.inl h1)]
  · rw [if_pos (Or.inr h2)]
  · by_cases h12 : fps ≤ 0 ∨ fc ≤ 0
    · rw [if_pos h12]
    · rw [if_neg h12, if_pos h3]

theorem stepVideoJob_accept (e : VidJobEnv) (path : String) (frames : List String)
    (hd : e.download = some path)
    (hext : extOfLower path ∈ ALLOWED_VIDEO_EXTENSIONS)
    (hop : e.opened = true)
    (hfps : 0 < e.fps) (hfc : 0 < e.frame_count)
    (hdur : e.frame_count / e.fps ≤ MAX_VIDEO_DURATION)
    (hex : e.extractResult = .ok frames)
    (hdw : e.doneWait = .ok ()) :
    stepVideoJob e = .ok ([⟨e.job_id, frames,
        some ⟨e.width, e.height, round2 (e.frame_count / e.fps), round2 e.fps,
              round2 (e.size_bytes / (1024 * 1024)), basenameOf path⟩⟩], [e.job_id]) := by
  obtain ⟨jid, dl, op, fps, fc, w, hgt, sz, exr, dw⟩ := e
  simp only at hd hop hfps hfc hdur hex hdw ⊢
  subst hd
  subst hop
  subst hex
  subst hdw
  unfold stepVideoJob
  simp only
  rw [if_neg (not_not_intro hext)]
  simp only [Bool.not_true]
  rw [if_neg (by simp : ¬ (false = true))]
  rw [if_neg (by push_neg; exact ⟨hfps, hfc⟩), if_neg (not_lt.mpr hdur)]

theorem stepVideoJob_extract_error (e : VidJobEnv) (path : String) (err : String)
    (hd : e.download = some path)
    (hext : extOfLower path ∈ ALLOWED_VIDEO_EXTENSIONS)
    (hop : e.opened = true)
    (hfps : 0 < e.fps) (hfc : 0 < e.frame_count)
    (hdur : e.frame_count / e.fps ≤ MAX_VIDEO_DURATION)
    (hex : e.extractResult = .error err) :
    stepVideoJob e = .error err := by
  obtain ⟨jid, dl, op, fps, fc, w, hgt, sz, exr, dw⟩ := e
  simp only at hd hop hfps hfc hdur hex ⊢
  subst hd
  subst hop
  subst hex
  unfold stepVideoJob
  simp only
  rw [if_neg (not_not_intro hext)]
  simp only [Bool.not_true]
  rw [if_neg (by simp : ¬ (false = true))]
  rw [if_neg (by push_neg; exact ⟨hfps, hfc⟩), if_neg (not_lt.mpr hdur)]

theorem preprocessVideos_bad_good :
    preprocessVideos [badVidEnv, goodVidEnv] = .error "ffmpeg error: scene pass failed" := by
  have hbad : stepVideoJob badVidEnv = .error "ffmpeg error: scene pass failed" :=
    stepVideoJob_extract_error badVidEnv "/tmp/data/r1/videos/1/video.mp4" _ rfl (by decide) rfl
      (by norm_num : (0:ℚ) < 30) (by norm_num : (0:ℚ) < 300)
      (by norm_num [MAX_VIDEO_DURATION] : (300:ℚ)/30 ≤ MAX_VIDEO_DURATION) rfl
  rw [preprocessVideos_cons, hbad]
  rfl

/-- C3 counterexample: a videos request with two jobs where the first job's
extraction raises — the whole request errors out through the handler with no
results at all, so the sibling job's results are not reported. -/
theorem C3_counterexample :
    handler (analyzeMedia (.videos [badVidEnv, goodVidEnv]) okScanEnv)
      = ⟨"error", none, some "ffmpeg error: scene pass failed"⟩ := by
  have hval : validateInput (MediaRequest.videos [badVidEnv, goodVidEnv]).mediaType
      (MediaRequest.videos [badVidEnv, goodVidEnv]).jobCount = .ok () := rfl
  have hfull : analyzeMedia (.videos [badVidEnv, goodVidEnv]) okScanEnv
      = (.error "ffmpeg error: scene pass failed", false) := by
    simp only [analyzeMedia, hval, preprocessVideos_bad_good]
  rw [hfull]
  rfl

/-- C3 amended: a fatal extraction error raised while preprocessing any
video job aborts the entire request instead of only that job: the blanket
`except ... raise` in `preprocess_media` re-raises it out of `analyze_media`,
the cleanup call is never reached, and the handler reports an error status
carrying that message with no results for any sibling job. -/
theorem C3_extraction_error_aborts_request (jobs : List VidJobEnv) (env : ScanEnv) (e : String)
    (hval : validateInput "videos" jobs.length = .ok ())
    (hpre : preprocessVideos jobs = .error e) :
    analyzeMedia (.videos jobs) env = (.error e, false)
    ∧ handler (analyzeMedia (.videos jobs) env) = ⟨"error", none, some e⟩ := by
  have hval2 : validateInput (MediaRequest.videos jobs).mediaType
      (MediaRequest.videos jobs).jobCount = .ok () := hval
  have hfull : analyzeMedia (.videos jobs) env = (.error e, false) := by
    simp only [analyzeMedia, hval2, hpre]
  exact ⟨hfull, by rw [hfull]; rfl⟩

theorem C3_witness :
    (validateInput "videos" ([badVidEnv, goodVidEnv] : List VidJobEnv).length = .ok ()
      ∧ preprocessVideos [badVidEnv, goodVidEnv] = .error "ffmpeg error: scene pass failed")
    ∧ (analyzeMedia (.videos [badVidEnv, goodVidEnv]) okScanEnv
          = (.error "ffmpeg error: scene pass failed", false)
        ∧ handler (analyzeMedia (.videos [badVidEnv, goodVidEnv]) okScanEnv)
          = ⟨"error", none, some "ffmpeg error: scene pass failed"⟩) :=
  ⟨⟨rfl, preprocessVideos_bad_good⟩,
   C3_extraction_error_aborts_request [badVidEnv, goodVidEnv] okScanEnv
     "ffmpeg error: scene pass failed" rfl preprocessVideos_bad_good⟩

/-- C4 counterexample: a video job rejected by the probe (fps = 0) is not
absent from the Job Preprocessor's output set — the stub descriptor appended
before the probe remains, with empty frames and empty metadata. -/
theorem C4_counterexample :
    preprocessVideos [rejectedVidEnv] = .ok ([⟨"1", [], none⟩], []) := by
  have hstep : stepVideoJob rejectedVidEnv = .ok ([⟨"1", [], none⟩], []) :=
    stepVideoJob_probe_reject rejectedVidEnv "/tmp/data/r1/videos/1/video.mp4" rfl (by decide)
      rfl (Or.inl (le_refl 0))
  rw [preprocessVideos_cons, hstep]
  rfl

/-- C4 amended: every video job rejected for non-positive fps, non-positive
frame count, or duration over the 300-second ceiling is skipped before
extraction is attempted — `extract_video_frames` is never invoked for it
(the empty invoked-job list; the scene/fps/spike/final staging directories
are created only inside that call, so none are created) — but the job is not
absent from the Job Preprocessor's output: the stub descriptor appended
before the probe remains in the output set with empty `frames_paths` and
empty metadata (the scanner later skips it because it has no frames). -/
theorem C4_probe_reject_behaviour (e : VidJobEnv) (path : String)
    (hd : e.download = some path)
    (hext : extOfLower path ∈ ALLOWED_VIDEO_EXTENSIONS)
    (hop : e.opened = true)
    (hrej : e.fps ≤ 0 ∨ e.frame_count ≤ 0 ∨ MAX_VIDEO_DURATION < e.frame_count / e.fps) :
    stepVideoJob e = .ok ([⟨e.job_id, [], none⟩], []) :=
  stepVideoJob_probe_reject e path hd hext hop hrej

theorem C4_witness :
    (rejectedVidEnv.download = some "/tmp/data/r1/videos/1/video.mp4"
      ∧ extOfLower "/tmp/data/r1/videos/1/video.mp4" ∈ ALLOWED_VIDEO_EXTENSIONS
      ∧ rejectedVidEnv.opened = true
      ∧ rejectedVidEnv.fps ≤ 0)
    ∧ stepVideoJob rejectedVidEnv = .ok ([⟨rejectedVidEnv.job_id, [], none⟩], []) :=
  ⟨⟨rfl, by decide, rfl, le_refl 0⟩,
   C4_probe_reject_behaviour rejectedVidEnv "/tmp/data/r1/videos/1/video.mp4" rfl (by decide)
     rfl (Or.inl (le_refl 0))⟩

/-- C2: code-bug evidence for round cleanup: on a fully successful videos
request the entrypoint returns its response from inside the videos branch
(main.py line 265) before ever reaching the `shutil.rmtree` call at line
267, so the round working directory is not removed (the second component
records whether the rmtree call was reached).  Cleanup runs only on the
images success path; on every failure path the raised exception also
bypasses it. -/
theorem C2_videos_success_skips_cleanup :
    (analyzeMedia (.videos [goodVidEnv]) okScanEnv).2 = false
    ∧ ∃ r, (analyzeMedia (.videos [goodVidEnv]) okScanEnv).1 = .ok (some r) := by
  have hgood : stepVideoJob goodVidEnv = .ok ([⟨"2", ["/tmp/data/r1/videos/2/final/aa.jpg"],
      some ⟨640, 480, round2 ((300:ℚ)/30), round2 (30:ℚ), round2 ((1048576:ℚ)/(1024*1024)),
            basenameOf "/tmp/data/r1/videos/2/video.mp4"⟩⟩], ["2"]) :=
    stepVideoJob_accept goodVidEnv "/tmp/data/r1/videos/2/video.mp4"
      ["/tmp/data/r1/videos/2/final/aa.jpg"] rfl (by decide) rfl
      (by norm_num : (0:ℚ) < 30) (by norm_num : (0:ℚ) < 300)
      (by norm_num [MAX_VIDEO_DURATION] : (300:ℚ)/30 ≤ MAX_VIDEO_DURATION) rfl rfl
  have hpre : preprocessVideos [goodVidEnv] = .ok ([⟨"2",
      ["/tmp/data/r1/videos/2/final/aa.jpg"],
      some ⟨640, 480, round2 ((300:ℚ)/30), round2 (30:ℚ), round2 ((1048576:ℚ)/(1024*1024)),
            basenameOf "/tmp/data/r1/videos/2/video.mp4"⟩⟩], ["2"]) := by
    rw [preprocessVideos_cons, hgood]
    rfl
  have hloop : ∃ v, videoResultsLoop okScanEnv [⟨"2",
      ["/tmp/data/r1/videos/2/final/aa.jpg"],
      some ⟨640, 480, round2 ((300:ℚ)/30), round2 (30:ℚ), round2 ((1048576:ℚ)/(1024*1024)),
            basenameOf "/tmp/data/r1/videos/2/video.mp4"⟩⟩] = .ok [v] := ⟨_, rfl⟩
  obtain ⟨v, hv⟩ := hloop
  have hval : validateInput (MediaRequest.videos [goodVidEnv]).mediaType
      (MediaRequest.videos [goodVidEnv]).jobCount = .ok () := rfl
  have hfull : analyzeMedia (.videos [goodVidEnv]) okScanEnv = (.ok (some ⟨[v]⟩), false) := by
    simp only [analyzeMedia, hval, hpre, hv]
  exact ⟨by rw [hfull], ⟨⟨[v]⟩, by rw [hfull]⟩⟩

/-- C1: code-bug evidence for the images return path: the verdict list is
computed exactly as specified — one Verdict per successfully preprocessed
job, the FrameResult passed through with `frame_count=1` and the
engine-version tag — but the images branch of `analyze_media` ends without a
return statement, so the entrypoint returns Python `None` to the handler
instead of that list (first component `none`) while the cleanup does run
(second component `true`). -/
theorem C1_images_entrypoint_returns_none :
    (∃ rs, scanFrames "images" ["/tmp/data/r1/images/1.jpg"] true
        (nsfwScanEnv.classifier ["/tmp/data/r1/images/1.jpg"]) nsfwScanEnv.imageMeta = .ok rs
      ∧ imagesVerdicts rs
          = [⟨⟨"1.jpg", true, 9/10, [("nsfw", 9/10)], some 2, some 3, some (round2 (1/2)), none⟩,
              1, engineVersion⟩])
    ∧ analyzeMedia (.images [imgJobOne]) nsfwScanEnv = (.ok none, true) := by
  have hsc : nsfwScoreOf [("nsfw", (9:ℚ)/10)] = 9/10 := rfl
  have hnsfw : decide ((1:ℚ)/2 < nsfwScoreOf [("nsfw", (9:ℚ)/10)]) = true :=
    decide_eq_true (by rw [hsc]; norm_num)
  constructor
  · refine ⟨[⟨"1.jpg", decide ((1:ℚ)/2 < nsfwScoreOf [("nsfw", (9:ℚ)/10)]),
        nsfwScoreOf [("nsfw", (9:ℚ)/10)], [("nsfw", (9:ℚ)/10)], some 2, some 3,
        some (round2 (1/2)), none⟩], rfl, ?_⟩
    simp [imagesVerdicts, hnsfw, hsc]
    norm_num
  · rfl
